import Mathlib

/-
Verification development for the SameTabOpener browser extension
(Navigation Deduplication & Tab-Reuse Coordinator).

The JavaScript background script is shallowly embedded here:

* URLs are `List Char`; the anchored regular expressions of the source
  (`TICKET_ROUTE`, `HASH_TICKET_ROUTE`, `TEAMS_SAFEURL`, the subdomain
  regex) are implemented as deterministic prefix parsers.  Each regex in
  the source is anchored with a caret and built from literals, the
  dot-free class, and greedy digit runs, so greedy maximal-munch parsing
  is equivalent to the backtracking semantics (a shorter match of a
  dot-free or digit run is always followed by a character that fails the
  next literal).
* The mutable background-script state (`recentNewTabs`, `navigationTabs`,
  `ongoingNavigations`, `isNavigating`) is a record `BgState`; `Date.now()`
  is the `now` field (one timestamp per handler invocation).
* Asynchronous browser calls are modelled by an oracle `World` giving each
  call's outcome (`Except Unit` results model promise rejection), and the
  calls a run performs are recorded in a trace of `Act` values.
  The actions of the 100 ms `setTimeout` callback that closes the
  duplicate tab are returned separately in `deferred` (that callback also
  clears the tracking entries of the closed tab, and the 3 s / 5 s
  failsafe timers later reset `isNavigating` and the ongoing-navigation
  key; those fire after the function itself has finished and are noted
  where relevant).
* Percent-decoding (`URLSearchParams`, `decodeURIComponent`) is modelled
  for ASCII escapes; multi-byte UTF-8 escapes (irrelevant to every claim,
  which concern ASCII ticket URLs) are conservatively treated as a decode
  failure, matching the source's catch-and-return-null handling.
* `new URL(...)` is modelled by `parseUrl` for http/https URLs that the
  browser's navigation events deliver (scheme, host, optional port, path,
  query, fragment); the source's fallback branch for a throwing URL
  constructor tests a regex that itself requires an http/https scheme, so
  it is `false` whenever `parseUrl` fails, which is how it is modelled.
-/

def httpChars : List Char :=
  ['h', 't', 't', 'p']

def schemeSep : List Char :=
  [':', '/', '/']

def httpsPrefix : List Char :=
  ['h', 't', 't', 'p', 's', ':', '/', '/']

def zdkDot : List Char :=
  ['.', 'z', 'e', 'n', 'd', 'e', 's', 'k', '.', 'c', 'o', 'm']

def zdkCom : List Char :=
  ['z', 'e', 'n', 'd', 'e', 's', 'k', '.', 'c', 'o', 'm']

def agentSlash : List Char :=
  ['/', 'a', 'g', 'e', 'n', 't', '/']

def zdkAgent : List Char :=
  ['.', 'z', 'e', 'n', 'd', 'e', 's', 'k', '.', 'c', 'o', 'm', '/', 'a', 'g', 'e', 'n', 't', '/']

def zdkAgentHash : List Char :=
  ['.', 'z', 'e', 'n', 'd', 'e', 's', 'k', '.', 'c', 'o', 'm', '/', 'a', 'g', 'e', 'n', 't', '/', '#', '/']

def zdkAgentTickets : List Char :=
  ['.', 'z', 'e', 'n', 'd', 'e', 's', 'k', '.', 'c', 'o', 'm', '/', 'a', 'g', 'e', 'n', 't', '/', 't', 'i', 'c', 'k', 'e', 't', 's', '/']

def ticketsW : List Char :=
  ['t', 'i', 'c', 'k', 'e', 't', 's']

def viewsW : List Char :=
  ['v', 'i', 'e', 'w', 's']

def teamsPath : List Char :=
  ['s', 't', 'a', 't', 'i', 'c', 's', '.', 't', 'e', 'a', 'm', 's', '.', 'c', 'd', 'n', '.', 'o', 'f', 'f', 'i', 'c', 'e', '.', 'n', 'e', 't', '/', 'e', 'v', 'e', 'r', 'g', 'r', 'e', 'e', 'n', '-', 'a', 's', 's', 'e', 't', 's', '/', 's', 'a', 'f', 'e', 'l', 'i', 'n', 'k', 's']

def teamsHost : List Char :=
  ['s', 't', 'a', 't', 'i', 'c', 's', '.', 't', 'e', 'a', 'm', 's', '.', 'c', 'd', 'n', '.', 'o', 'f', 'f', 'i', 'c', 'e', '.', 'n', 'e', 't']

def teamsPathTl : List Char :=
  ['e', 'v', 'e', 'r', 'g', 'r', 'e', 'e', 'n', '-', 'a', 's', 's', 'e', 't', 's', '/', 's', 'a', 'f', 'e', 'l', 'i', 'n', 'k', 's']

def statics7 : List Char :=
  ['s', 't', 'a', 't', 'i', 'c', 's']

def teamsAfter : List Char :=
  ['t', 'e', 'a', 'm', 's', '.', 'c', 'd', 'n', '.', 'o', 'f', 'f', 'i', 'c', 'e', '.', 'n', 'e', 't', '/', 'e', 'v', 'e', 'r', 'g', 'r', 'e', 'e', 'n', '-', 'a', 's', 's', 'e', 't', 's', '/', 's', 'a', 'f', 'e', 'l', 'i', 'n', 'k', 's']

def urlKeyW : List Char :=
  ['u', 'r', 'l']

def nullW : List Char :=
  ['n', 'u', 'l', 'l']

def agentChatSeg : List Char :=
  ['/', 'a', 'g', 'e', 'n', 't', '/', 'c', 'h', 'a', 't']

def agentTalkSeg : List Char :=
  ['/', 'a', 'g', 'e', 'n', 't', '/', 't', 'a', 'l', 'k']

def agentVoiceSeg : List Char :=
  ['/', 'a', 'g', 'e', 'n', 't', '/', 'v', 'o', 'i', 'c', 'e']

def agentAdminVoiceSeg : List Char :=
  ['/', 'a', 'g', 'e', 'n', 't', '/', 'a', 'd', 'm', 'i', 'n', '/', 'v', 'o', 'i', 'c', 'e']

def printSeg1 : List Char :=
  ['/', 't', 'i', 'c', 'k', 'e', 't', 's', '/']

def printSeg2 : List Char :=
  ['/', 'p', 'r', 'i', 'n', 't']

/-- Strip a literal prefix: `stripP p s = some r` iff `s = p ++ r`.
This is the embedding of matching a literal fragment of an anchored regex. -/
def stripP : List Char → List Char → Option (List Char)
  | [], s => some s
  | _ :: _, [] => none
  | p :: ps, c :: cs => if c == p then stripP ps cs else none

/-- Embedding of the anchored fragment `https?:\/\/` shared by every regex of
the source: the literal `http`, an optional `s`, then `://`. -/
def stripScheme (u : List Char) : Option (List Char) :=
  match stripP httpChars u with
  | none => none
  | some r1 =>
    match stripP ['s'] r1 with
    | some r2 =>
      match stripP schemeSep r2 with
      | some r3 => some r3
      | none => stripP schemeSep r1
    | none => stripP schemeSep r1

/-- The character class of the subdomain group `[^.]+`. -/
def nondot (c : Char) : Bool := !(c == '.')

/-- Embedding of `String.prototype.includes`: `includesSub needle s` is true
iff `needle` occurs as a contiguous substring of `s`. -/
def includesSub (needle : List Char) : List Char → Bool
  | [] => needle.isEmpty
  | c :: t => needle.isPrefixOf (c :: t) || includesSub needle t

/-- The alternation `(tickets|views)` of `TICKET_ROUTE` and
`HASH_TICKET_ROUTE` (background.js line 70-71). The two literals differ in
their first character, so no backtracking between them is possible. -/
def stripTicketsOrViews (r : List Char) : Option (List Char) :=
  match stripP ticketsW r with
  | some r2 => some r2
  | none => stripP viewsW r

/-- Common tail `(tickets|views)\/(\d+)` of both ticket-route regexes:
the route type, a slash, then a non-empty greedy digit run (group 3). -/
def ticketTail (r2 sub : List Char) : Option (List Char × List Char) :=
  match stripTicketsOrViews r2 with
  | none => none
  | some r3 =>
    match stripP ['/'] r3 with
    | none => none
    | some r4 =>
      let num := r4.takeWhile Char.isDigit
      if num == [] then none else some (sub, num)

/-- Embedding of `TICKET_ROUTE =
\^https?:\/\/([^.]+)\.zendesk\.com\/agent\/(tickets|views)\/(\d+)/`
(background.js line 70).  Returns the subdomain (group 1) and the digit run
(group 3); the regex is unanchored at the end, so anything may follow the
digits. -/
def matchTicketRoute (u : List Char) : Option (List Char × List Char) :=
  match stripScheme u with
  | none => none
  | some r =>
    let sub := r.takeWhile nondot
    if sub == [] then none
    else
      match stripP zdkAgent (r.dropWhile nondot) with
      | none => none
      | some r2 => ticketTail r2 sub

/-- Embedding of `HASH_TICKET_ROUTE =
\^https?:\/\/([^.]+)\.zendesk\.com\/agent\/#\/(tickets|views)\/(\d+)/`
(background.js line 71). -/
def matchHashTicketRoute (u : List Char) : Option (List Char × List Char) :=
  match stripScheme u with
  | none => none
  | some r =>
    let sub := r.takeWhile nondot
    if sub == [] then none
    else
      match stripP zdkAgentHash (r.dropWhile nondot) with
      | none => none
      | some r2 => ticketTail r2 sub

/-- Embedding of `extractTicketNumber` (background.js lines 163-166):
`url.match(TICKET_ROUTE) || url.match(HASH_TICKET_ROUTE)`, returning
`match[3]`. -/
def extractTicketNumber (u : List Char) : Option (List Char) :=
  match matchTicketRoute u with
  | some m => some m.2
  | none =>
    match matchHashTicketRoute u with
    | some m => some m.2
    | none => none

/-- Embedding of `extractSubdomain` (background.js lines 168-171):
`url.match(/^https?:\/\/([^.]+)\.zendesk\.com/)`, returning `match[1]`. -/
def extractSubdomain (u : List Char) : Option (List Char) :=
  match stripScheme u with
  | none => none
  | some r =>
    let sub := r.takeWhile nondot
    if sub == [] then none
    else if (stripP zdkDot (r.dropWhile nondot)).isSome then some sub else none

/-- Embedding of `TEAMS_SAFEURL.test` (background.js line 73): the anchored
prefix `https?:\/\/statics\.teams\.cdn\.office\.net\/evergreen-assets\/safelinks`. -/
def teamsTest (u : List Char) : Bool :=
  match stripScheme u with
  | none => false
  | some r => teamsPath.isPrefixOf r

/-- Embedding of `isZendeskUrl` (background.js lines 188-190):
`url && url.includes('zendesk.com')`. -/
def isZendeskUrl (u : List Char) : Bool :=
  includesSub zdkCom u

/-- Hexadecimal digit value, as used by percent-escape decoding. -/
def hexVal (c : Char) : Option Nat :=
  if '0' ≤ c ∧ c ≤ '9' then some (c.toNat - 48)
  else if 'A' ≤ c ∧ c ≤ 'F' then some (c.toNat - 55)
  else if 'a' ≤ c ∧ c ≤ 'f' then some (c.toNat - 87)
  else none

/-- The `application/x-www-form-urlencoded` decoding used by
`URLSearchParams`: `+` becomes a space, a valid ASCII percent escape is
decoded, and a malformed escape is kept literally (this decoder never
throws).  Multi-byte escapes are outside the model (see header). -/
def formDecode : List Char → List Char
  | [] => []
  | '+' :: t => ' ' :: formDecode t
  | '%' :: a :: b :: t =>
    match hexVal a, hexVal b with
    | some ha, some hb =>
      if ha * 16 + hb < 128 then Char.ofNat (ha * 16 + hb) :: formDecode t
      else '%' :: formDecode (a :: b :: t)
    | _, _ => '%' :: formDecode (a :: b :: t)
  | '%' :: t => '%' :: formDecode t
  | c :: t => c :: formDecode t

/-- Model of `decodeURIComponent`: decodes ASCII percent escapes, leaves
other characters (including `+`) unchanged, and fails (`none`, modelling
the thrown `URIError`) on a malformed or non-ASCII escape. -/
def decodeURIComponent : List Char → Option (List Char)
  | [] => some []
  | '%' :: a :: b :: t =>
    match hexVal a, hexVal b with
    | some ha, some hb =>
      if ha * 16 + hb < 128 then (decodeURIComponent t).map (Char.ofNat (ha * 16 + hb) :: ·)
      else none
    | _, _ => none
  | '%' :: _ => none
  | c :: t => (decodeURIComponent t).map (c :: ·)

/-- Embedding of `url.split('?')[1]`: the section strictly between the
first `?` and the second `?` (or the end); `none` when the string has no
`?`, in which case `new URLSearchParams(undefined)` holds no entries. -/
def afterQ : List Char → Option (List Char)
  | [] => none
  | '?' :: t => some (t.takeWhile (fun c => !(c == '?')))
  | _ :: t => afterQ t

/-- Split a query string on `&` (the segments of `URLSearchParams`). -/
def splitAmp : List Char → List (List Char)
  | [] => [[]]
  | '&' :: t => [] :: splitAmp t
  | c :: t =>
    match splitAmp t with
    | [] => [[c]]
    | seg :: rest => (c :: seg) :: rest

/-- Split a `URLSearchParams` segment at its first `=`; a segment without
`=` yields an empty value, exactly like one ending in `=` (the two cases
are indistinguishable to `get`). -/
def splitEq : List Char → List Char × List Char
  | [] => ([], [])
  | '=' :: t => ([], t)
  | c :: t =>
    let kv := splitEq t
    (c :: kv.1, kv.2)

/-- Embedding of `new URLSearchParams(q).get(key)`: the first segment whose
form-decoded key equals `key`, with its form-decoded value; empty segments
are ignored. -/
def getParam (key q : List Char) : Option (List Char) :=
  let pairs := ((splitAmp q).filter (fun s => !(s == []))).map
    (fun seg => (formDecode (splitEq seg).1, formDecode (splitEq seg).2))
  (pairs.find? (fun p => p.1 == key)).map (fun p => p.2)

/-- Embedding of `extractZendeskUrlFromTeams` (background.js lines 173-186):
reject non-safelink URLs, read the `url` query parameter, and
`decodeURIComponent` it; a falsy parameter or a throwing decode yields
`null`. -/
def extractZendeskUrlFromTeams (u : List Char) : Option (List Char) :=
  if teamsTest u then
    match afterQ u with
    | none => none
    | some q =>
      match getParam urlKeyW q with
      | none => none
      | some encodedUrl =>
        if encodedUrl == [] then none
        else
          match decodeURIComponent encodedUrl with
          | some z => some z
          | none => none
  else none

/-- The components of `new URL(u)` used by `isRestrictedZendeskUrl`. -/
structure UrlParts where
  hostname : List Char
  pathname : List Char
  hash : List Char
deriving DecidableEq

def notHostDelim (c : Char) : Bool := !(c == '/' || c == '?' || c == '#' || c == ':')

def notPortEnd (c : Char) : Bool := !(c == '/' || c == '?' || c == '#')

def notPathEnd (c : Char) : Bool := !(c == '?' || c == '#')

/-- The `hash` component: from the first `#` to the end, with the leading
`#` included, except that an empty fragment yields the empty hash (the
WHATWG behaviour reflected by `URL.prototype.hash`). -/
def findHash : List Char → List Char
  | [] => []
  | '#' :: t => if t == [] then [] else '#' :: t
  | _ :: t => findHash t

/-- Model of `new URL(u)` for the http/https URLs delivered by the
browser's navigation events: lowercased hostname, a pathname that is `/`
when absent, and the fragment per `findHash`.  `none` models a throwing
constructor. -/
def parseUrl (u : List Char) : Option UrlParts :=
  match stripScheme u with
  | none => none
  | some r =>
    let host := r.takeWhile notHostDelim
    if host == [] then none
    else
      let rest := r.dropWhile notHostDelim
      let rest2 :=
        match rest with
        | ':' :: t => t.dropWhile notPortEnd
        | _ => rest
      let p := rest2.takeWhile notPathEnd
      some { hostname := host.map Char.toLower
             pathname := if p == [] then ['/'] else p
             hash := findHash rest2 }

/-- One candidate position of the search `/\/tickets\/\d+\/print/i`:
the literal `/tickets/`, a non-empty digit run, then `/print`
(applied to a lowercased pathname, which renders the `i` flag inert). -/
def ticketsPrintAt (s : List Char) : Bool :=
  match stripP printSeg1 s with
  | none => false
  | some r =>
    if r.takeWhile Char.isDigit == [] then false
    else (stripP printSeg2 (r.dropWhile Char.isDigit)).isSome

/-- Unanchored search for the print-view pattern over the pathname. -/
def hasTicketsPrint : List Char → Bool
  | [] => false
  | c :: t => ticketsPrintAt (c :: t) || hasTicketsPrint t

/-- Embedding of `isRestrictedZendeskUrl` (part_000 lines 422-435): a
zendesk.com host whose lowercased pathname or hash contains an agent
chat/talk/voice/admin-voice segment, or whose pathname contains a ticket
print view.  The source's catch branch (for a throwing `new URL`) tests
`RESTRICTED_ROUTE`, which is anchored on `https?://` and therefore fails
whenever `parseUrl` does; it is modelled by `false`. -/
def isRestrictedZendeskUrl (u : List Char) : Bool :=
  match parseUrl u with
  | none => false
  | some parts =>
    if zdkDot.isSuffixOf parts.hostname then
      let p := parts.pathname.map Char.toLower
      let h := parts.hash.map Char.toLower
      includesSub agentChatSeg p || includesSub agentTalkSeg p ||
      includesSub agentVoiceSeg p || includesSub agentAdminVoiceSeg p ||
      includesSub agentChatSeg h || includesSub agentTalkSeg h ||
      includesSub agentVoiceSeg h || includesSub agentAdminVoiceSeg h ||
      hasTicketsPrint p
    else false

/-- A tab as returned by `chrome.tabs.query` (the fields the source reads:
`id`, `url`, `windowId`, `lastAccessed`; a missing `lastAccessed` is the
JS `|| 0` default, modelled as the value 0). -/
structure Tab where
  id : Nat
  url : List Char
  windowId : Nat
  lastAccessed : Nat
deriving DecidableEq

/-- The result object produced by the injected no-reload navigation script
(background.js lines 358-454): the `success` flag is the only field the
caller branches on (`method`, `error` and `logs` are only logged, and with
the result object present the `result.logs` read cannot throw). -/
structure ScriptResult where
  success : Bool
deriving DecidableEq

/-- Mutable state of the background script: `recentNewTabs` and
`navigationTabs` (lines 114-115), `ongoingNavigations` (line 121), the
global lock `isNavigating` (line 128), and the current `Date.now()` value
(one reading per handler invocation). -/
structure BgState where
  recentNewTabs : List (Nat × Nat)
  navigationTabs : List Nat
  ongoingNavigations : List (List Char)
  isNavigating : Bool
  now : Nat
deriving DecidableEq

/-- A browser/storage call performed by a run (the trace alphabet). -/
inductive Act where
  | getSettings : Act
  | queryTabs : List Char → Act
  | focusTab : Nat → Act
  | focusWindow : Nat → Act
  | execScript : Nat → List Char → Act
  | updateUrl : Nat → List Char → Act
  | getTab : Nat → Act
  | removeTab : Nat → Act
deriving DecidableEq

/-- Oracle for the asynchronous browser calls of one run: each field is the
outcome the browser would deliver (`Except.error` models a rejected
promise), and `alive` answers the `tabExists` probe of the delayed
close-duplicate callback. -/
structure World where
  settingsR : Except Unit Bool
  queryR : Except Unit (List Tab)
  focusTabR : Except Unit Unit
  focusWinR : Except Unit Unit
  execR : Except Unit (Option ScriptResult)
  updUrlR : Except Unit Unit
  alive : Nat → Bool

/-- Outcome of running a handler: final state, the synchronous-call trace,
the actions of the scheduled 100 ms close-duplicate callback (`deferred`),
and whether the handler's promise rejected. -/
structure RunResult where
  state : BgState
  trace : List Act
  deferred : List Act
  threw : Bool
deriving DecidableEq

/-- A `webNavigation` event payload (`tabId`, `url`, `frameId`). -/
structure NavDetails where
  tabId : Nat
  url : List Char
  frameId : Nat
deriving DecidableEq

def NEW_TAB_WINDOW_MS : Nat := 5000

def lookupTs (l : List (Nat × Nat)) (tabId : Nat) : Option Nat :=
  (l.find? (fun p => p.1 == tabId)).map (fun p => p.2)

def eraseTs (l : List (Nat × Nat)) (tabId : Nat) : List (Nat × Nat) :=
  l.filter (fun p => !(p.1 == tabId))

/-- `Set.prototype.add` on the tab-id sets. -/
def setAddNat (x : Nat) (l : List Nat) : List Nat :=
  if l.contains x then l else x :: l

/-- `Set.prototype.delete` on the navigation-key set. -/
def setRemove (k : List Char) (l : List (List Char)) : List (List Char) :=
  l.filter (fun s => !(s == k))

/-- Embedding of `markTabNew` (background.js lines 130-133). -/
def markTabNew (st : BgState) (tabId : Nat) : BgState :=
  { st with recentNewTabs := (tabId, st.now) :: eraseTs st.recentNewTabs tabId }

/-- Embedding of `isTabRecentlyNew` (background.js lines 135-154): a tab in
`navigationTabs` is ignored (false); otherwise the entry must exist and be
at most `NEW_TAB_WINDOW_MS` old, expired entries being evicted on read.
`Date.now() - ts` is `st.now - ts` in `Nat`; for a timestamp in the future
both JS (negative age) and `Nat` (truncated to 0) report recent. -/
def isTabRecentlyNew (st : BgState) (tabId : Nat) : Bool × BgState :=
  if st.navigationTabs.contains tabId then (false, st)
  else
    match lookupTs st.recentNewTabs tabId with
    | none => (false, st)
    | some ts =>
      if st.now - ts ≤ NEW_TAB_WINDOW_MS then (true, st)
      else (false, { st with recentNewTabs := eraseTs st.recentNewTabs tabId })

/-- Embedding of `clearNavigationTab` (background.js lines 157-161). -/
def clearNavigationTab (st : BgState) (tabId : Nat) : BgState :=
  { st with
      navigationTabs := st.navigationTabs.filter (fun x => !(x == tabId)),
      recentNewTabs := eraseTs st.recentNewTabs tabId }

/-- The JS template interpolation of a possibly-null string. -/
def jsTemplateOpt : Option (List Char) → List Char
  | some s => s
  | none => nullW

/-- The navigation key `\x7bsubdomain\x7d-\x7bticketNumber\x7d` built in
`processZendeskNavigation` (line 593) and `reuseZendeskTab` (line 266). -/
def navKey (url : List Char) : List Char :=
  jsTemplateOpt (extractSubdomain url) ++ '-' :: jsTemplateOpt (extractTicketNumber url)

/-- The clean ticket URL rebuilt in `reuseZendeskTab` (line 316):
`https://\x7bsubdomain\x7d.zendesk.com/agent/tickets/\x7bticketNumber\x7d`. -/
def cleanUrlOf (subdomain ticketNumber : List Char) : List Char :=
  httpsPrefix ++ subdomain ++ zdkAgentTickets ++ ticketNumber

/-- The reduce step of line 308: keep `a` iff its `lastAccessed` is
strictly greater, else take `b`. -/
def pickTarget : Tab → List Tab → Tab
  | a, [] => a
  | a, b :: r => pickTarget (if b.lastAccessed < a.lastAccessed then a else b) r

/-- The candidate filter of lines 295-298: drop the new tab itself and keep
tabs whose URL contains `/agent/`. -/
def reuseCandidates (allTabs : List Tab) (newTabId : Nat) : List Tab :=
  allTabs.filter (fun t => !(t.id == newTabId) && includesSub agentSlash t.url)

/-- Actions of the 100 ms close-duplicate callback (lines 330-336 and
489-495): probe the tab (`tabExists`, which catches its own errors) and
remove it only when it still exists.  The callback then also runs
`clearNavigationTab` on the closed tab; that later state change is not part
of the handler's own result. -/
def closeNewTabActs (w : World) (newTabId : Nat) : List Act :=
  Act.getTab newTabId :: (if w.alive newTabId then [Act.removeTab newTabId] else [])

/-- Whether the injected no-reload attempt fails to report success: the
call rejects, resolves without a result object, or reports `success` false
(the `result && result.success` test of background.js line 459 being
falsy). -/
def execNotSuccess (w : World) : Bool :=
  match w.execR with
  | Except.error _ => true
  | Except.ok none => true
  | Except.ok (some r) => !r.success

/-- The direct URL update of the target tab (lines 474, 480, 485), shared
by the no-reload fallbacks and the full-reload mode.  On success the run
continues to the close-duplicate step and deletes its navigation key
(line 500); when the update itself rejects, control reaches the outer
catch (line 502), whose `ongoingNavigations.delete(navigationKey)` throws a
`ReferenceError` (`navigationKey` is `const`-scoped inside the `try`
block), so the key is NOT removed and the promise rejects; the `finally`
(line 506) still clears `isNavigating`. -/
def reuseFallback (w : World) (st1 : BgState) (navigationKey : List Char) (newTabId : Nat)
    (targetTab : Tab) (cleanUrl : List Char) (tr : List Act) : RunResult :=
  match w.updUrlR with
  | Except.ok _ =>
    { state := { st1 with
        ongoingNavigations := setRemove navigationKey st1.ongoingNavigations,
        isNavigating := false }
      trace := tr ++ [Act.updateUrl targetTab.id cleanUrl]
      deferred := closeNewTabActs w newTabId
      threw := false }
  | Except.error _ =>
    { state := { st1 with isNavigating := false }
      trace := tr ++ [Act.updateUrl targetTab.id cleanUrl]
      deferred := []
      threw := true }

/-- Embedding of `reuseZendeskTab` (background.js lines 235-511).  The 3 s
global-lock failsafe (line 244) and the 5 s navigation-key failsafe
(line 280) fire after the function has finished and are not part of the
returned state.  Whenever an exception escapes the `try` block, the catch
block's reference to the try-scoped `navigationKey` raises a
`ReferenceError` before the `delete` runs, so `ongoingNavigations` is left
untouched there, while the `finally` always resets `isNavigating`. -/
def reuseZendeskTab (w : World) (st : BgState) (newTabId : Nat) (ticketUrl : List Char) : RunResult :=
  let stL := { st with isNavigating := true }
  match w.settingsR with
  | Except.error _ =>
    { state := { stL with isNavigating := false }
      trace := [Act.getSettings], deferred := [], threw := true }
  | Except.ok useNoReload =>
    match extractSubdomain ticketUrl, extractTicketNumber ticketUrl with
    | some subdomain, some ticketNumber =>
      let navigationKey := subdomain ++ '-' :: ticketNumber
      if stL.ongoingNavigations.contains navigationKey then
        { state := { stL with isNavigating := false }
          trace := [Act.getSettings], deferred := [], threw := false }
      else
        let st1 := { stL with ongoingNavigations := navigationKey :: stL.ongoingNavigations }
        match w.queryR with
        | Except.error _ =>
          { state := { st1 with isNavigating := false }
            trace := [Act.getSettings, Act.queryTabs subdomain], deferred := [], threw := true }
        | Except.ok allTabs =>
          match reuseCandidates allTabs newTabId with
          | [] =>
            { state := { st1 with isNavigating := false }
              trace := [Act.getSettings, Act.queryTabs subdomain], deferred := [], threw := false }
          | c :: rest =>
            let targetTab := pickTarget c rest
            let cleanUrl := cleanUrlOf subdomain ticketNumber
            match w.focusTabR with
            | Except.error _ =>
              { state := { st1 with isNavigating := false }
                trace := [Act.getSettings, Act.queryTabs subdomain, Act.focusTab targetTab.id]
                deferred := [], threw := true }
            | Except.ok _ =>
              match w.focusWinR with
              | Except.error _ =>
                { state := { st1 with isNavigating := false }
                  trace := [Act.getSettings, Act.queryTabs subdomain, Act.focusTab targetTab.id,
                            Act.focusWindow targetTab.windowId]
                  deferred := [], threw := true }
              | Except.ok _ =>
                let tr0 := [Act.getSettings, Act.queryTabs subdomain, Act.focusTab targetTab.id,
                            Act.focusWindow targetTab.windowId]
                if targetTab.url == cleanUrl then
                  { state := { st1 with
                      ongoingNavigations := setRemove navigationKey st1.ongoingNavigations,
                      isNavigating := false }
                    trace := tr0
                    deferred := closeNewTabActs w newTabId
                    threw := false }
                else
                  if useNoReload then
                    match w.execR with
                    | Except.ok (some r) =>
                      if r.success then
                        { state := { st1 with
                            ongoingNavigations := setRemove navigationKey st1.ongoingNavigations,
                            isNavigating := false }
                          trace := tr0 ++ [Act.execScript targetTab.id cleanUrl]
                          deferred := closeNewTabActs w newTabId
                          threw := false }
                      else
                        reuseFallback w st1 navigationKey newTabId targetTab cleanUrl
                          (tr0 ++ [Act.execScript targetTab.id cleanUrl])
                    | Except.ok none =>
                      reuseFallback w st1 navigationKey newTabId targetTab cleanUrl
                        (tr0 ++ [Act.execScript targetTab.id cleanUrl])
                    | Except.error _ =>
                      reuseFallback w st1 navigationKey newTabId targetTab cleanUrl
                        (tr0 ++ [Act.execScript targetTab.id cleanUrl])
                  else
                    reuseFallback w st1 navigationKey newTabId targetTab cleanUrl tr0
    | _, _ =>
      { state := { stL with isNavigating := false }
        trace := [Act.getSettings], deferred := [], threw := false }

/-- Embedding of the `chrome.webNavigation.onCreatedNavigationTarget`
listener (background.js lines 798-836).  When the global lock is held and
the URL matches a ticket route, the scheduled callback forces the source
tab to the URL (its own try/catch) and removes the created tab after a
`tabExists` probe (its own try/catch); in every branch with a truthy
`tabId` the created tab is added to `navigationTabs`. -/
def onCreatedNavigationTarget (w : World) (st : BgState) (sourceTabId tabId : Nat)
    (url : List Char) : RunResult :=
  if st.isNavigating && !(sourceTabId == 0) && !(tabId == 0) && !(url == []) &&
      ((matchTicketRoute url).isSome || (matchHashTicketRoute url).isSome) then
    { state := { st with navigationTabs := setAddNat tabId st.navigationTabs }
      trace := []
      deferred := Act.updateUrl sourceTabId url :: Act.getTab tabId ::
        (if w.alive tabId then [Act.removeTab tabId] else [])
      threw := false }
  else if !(tabId == 0) then
    { state := { st with navigationTabs := setAddNat tabId st.navigationTabs }
      trace := [], deferred := [], threw := false }
  else
    { state := st, trace := [], deferred := [], threw := false }

def noopResult (st : BgState) : RunResult :=
  { state := st, trace := [], deferred := [], threw := false }

/-- Embedding of `processZendeskNavigation` (background.js lines 582-614):
drop the event when its key is already in flight, drop it when the tab is
not recently new (the recency read may evict an expired entry), otherwise
run the hand-off. -/
def processZendeskNavigation (w : World) (st : BgState) (tabId : Nat) (url : List Char) : RunResult :=
  if st.ongoingNavigations.contains (navKey url) then noopResult st
  else
    match isTabRecentlyNew st tabId with
    | (true, st2) => reuseZendeskTab w st2 tabId url
    | (false, st2) => noopResult st2

/-- The early loop-prevention block of `handleNavigation`
(background.js lines 541-555). -/
def earlyLoopHit (st : BgState) (u : List Char) : Bool :=
  isZendeskUrl u &&
    (match extractTicketNumber u, extractSubdomain u with
     | some n, some s => st.ongoingNavigations.contains (s ++ '-' :: n)
     | _, _ => false)

def ticketUrlTest (u : List Char) : Bool :=
  (matchTicketRoute u).isSome || (matchHashTicketRoute u).isSome

/-- Embedding of `handleNavigation` (background.js lines 514-580), the
listener of `webNavigation.onCompleted` and `onHistoryStateUpdated`:
global-lock gate, main-frame gate, early loop prevention, the Teams
safelink branch, then the ticket-route gate. -/
def handleNavigation (w : World) (st : BgState) (d : NavDetails) : RunResult :=
  if st.isNavigating then noopResult st
  else if !(d.frameId == 0) then noopResult st
  else if earlyLoopHit st d.url then noopResult st
  else if teamsTest d.url then
    match extractZendeskUrlFromTeams d.url with
    | some z =>
      if (matchTicketRoute z).isSome then processZendeskNavigation w st d.tabId z
      else if ticketUrlTest d.url then processZendeskNavigation w st d.tabId d.url
      else noopResult st
    | none =>
      if ticketUrlTest d.url then processZendeskNavigation w st d.tabId d.url
      else noopResult st
  else if ticketUrlTest d.url then processZendeskNavigation w st d.tabId d.url
  else noopResult st

/- Concrete inputs used by the closed counterexample and witness theorems. -/

def subAcme : List Char :=
  ['a', 'c', 'm', 'e']

def num500 : List Char :=
  ['5', '0', '0']

def num123 : List Char :=
  ['1', '2', '3']

def tailAbc : List Char :=
  ['a', 'b', 'c']

def urlT500 : List Char :=
  ['h', 't', 't', 'p', 's', ':', '/', '/', 'a', 'c', 'm', 'e', '.', 'z', 'e', 'n', 'd', 'e', 's', 'k', '.', 'c', 'o', 'm', '/', 'a', 'g', 'e', 'n', 't', '/', 't', 'i', 'c', 'k', 'e', 't', 's', '/', '5', '0', '0']

def urlT80 : List Char :=
  ['h', 't', 't', 'p', 's', ':', '/', '/', 'a', 'c', 'm', 'e', '.', 'z', 'e', 'n', 'd', 'e', 's', 'k', '.', 'c', 'o', 'm', '/', 'a', 'g', 'e', 'n', 't', '/', 't', 'i', 'c', 'k', 'e', 't', 's', '/', '8', '0']

def urlPrint123 : List Char :=
  ['h', 't', 't', 'p', 's', ':', '/', '/', 'a', 'c', 'm', 'e', '.', 'z', 'e', 'n', 'd', 'e', 's', 'k', '.', 'c', 'o', 'm', '/', 'a', 'g', 'e', 'n', 't', '/', 't', 'i', 'c', 'k', 'e', 't', 's', '/', '1', '2', '3', '/', 'p', 'r', 'i', 'n', 't']

def urlChat : List Char :=
  ['h', 't', 't', 'p', 's', ':', '/', '/', 'a', 'c', 'm', 'e', '.', 'z', 'e', 'n', 'd', 'e', 's', 'k', '.', 'c', 'o', 'm', '/', 'a', 'g', 'e', 'n', 't', '/', 'c', 'h', 'a', 't', '/', 's', 'e', 's', 's', 'i', 'o', 'n', '1']

def url123abc : List Char :=
  ['h', 't', 't', 'p', 's', ':', '/', '/', 'a', 'c', 'm', 'e', '.', 'z', 'e', 'n', 'd', 'e', 's', 'k', '.', 'c', 'o', 'm', '/', 'a', 'g', 'e', 'n', 't', '/', 't', 'i', 'c', 'k', 'e', 't', 's', '/', '1', '2', '3', 'a', 'b', 'c']

def urlTeams : List Char :=
  ['h', 't', 't', 'p', 's', ':', '/', '/', 's', 't', 'a', 't', 'i', 'c', 's', '.', 't', 'e', 'a', 'm', 's', '.', 'c', 'd', 'n', '.', 'o', 'f', 'f', 'i', 'c', 'e', '.', 'n', 'e', 't', '/', 'e', 'v', 'e', 'r', 'g', 'r', 'e', 'e', 'n', '-', 'a', 's', 's', 'e', 't', 's', '/', 's', 'a', 'f', 'e', 'l', 'i', 'n', 'k', 's', '?', 'u', 'r', 'l', '=', 'h', 't', 't', 'p', 's', '%', '3', 'A', '%', '2', 'F', '%', '2', 'F', 'a', 'c', 'm', 'e', '.', 'z', 'e', 'n', 'd', 'e', 's', 'k', '.', 'c', 'o', 'm', '%', '2', 'F', 'a', 'g', 'e', 'n', 't', '%', '2', 'F', 't', 'i', 'c', 'k', 'e', 't', 's', '%', '2', 'F', '5', '0', '0']

def keyAcme500 : List Char :=
  subAcme ++ '-' :: num500

/-- The empty initial state of the background script. -/
def stEmpty : BgState :=
  { recentNewTabs := [], navigationTabs := [], ongoingNavigations := []
    isNavigating := false, now := 0 }

/-- A world in which every browser call succeeds, the tab query returns no
tabs, and the injected script reports no result object. -/
def wOk : World :=
  { settingsR := Except.ok true, queryR := Except.ok []
    focusTabR := Except.ok (), focusWinR := Except.ok ()
    execR := Except.ok none, updUrlR := Except.ok ()
    alive := fun _ => true }

/-- A world in which `chrome.tabs.query` rejects. -/
def wQueryFail : World :=
  { wOk with queryR := Except.error () }

/-- An existing agent tab already showing the clean URL of ticket 500. -/
def tabClean500 : Tab :=
  { id := 2, url := cleanUrlOf subAcme num500, windowId := 1, lastAccessed := 5 }

/-- An existing agent tab showing ticket 80. -/
def tabOn80 : Tab :=
  { id := 2, url := urlT80, windowId := 1, lastAccessed := 5 }

/-- A world whose tab query finds the already-clean tab. -/
def wSameUrl : World :=
  { wOk with queryR := Except.ok [tabClean500] }

/-- A world whose tab query finds the ticket-80 tab and whose script
injection resolves without a result object (absent result shape). -/
def wNoShape : World :=
  { wOk with queryR := Except.ok [tabOn80], execR := Except.ok none }

/-- State in which tab 1 was just created (`tabs.onCreated` ran
`markTabNew`). -/
def stTab1New : BgState := markTabNew stEmpty 1

/-- State with a hand-off for `acme-500` already in flight. -/
def stBusy500 : BgState :=
  { stEmpty with ongoingNavigations := [keyAcme500] }

/-- State with the global navigation lock held. -/
def stNavigating : BgState :=
  { stEmpty with isNavigating := true }

/-- State in which tab 7 is registered as a navigation target and also has
a fresh `recentNewTabs` entry. -/
def stNavTarget7 : BgState :=
  { stEmpty with navigationTabs := [7], recentNewTabs := [(7, 0)] }

/- Helper lemmas about the parsing primitives. -/

theorem stripP_self_append (p r : List Char) : stripP p (p ++ r) = some r := by
  induction p with
  | nil => rfl
  | cons a ps ih => simp [stripP, ih]

theorem stripP_some : ∀ {p s r : List Char}, stripP p s = some r → s = p ++ r := by
  intro p
  induction p with
  | nil =>
    intro s r h
    simp only [stripP, Option.some.injEq] at h
    simp [h]
  | cons a ps ih =>
    intro s r h
    cases s with
    | nil => simp [stripP] at h
    | cons c cs =>
      simp only [stripP] at h
      split at h
      · next hca =>
        have hc : c = a := by simpa using hca
        have := ih h
        simp [hc, this]
      · exact absurd h (by simp)

theorem twAppend {p : Char → Bool} : ∀ {l r : List Char}, (∀ c ∈ l, p c = true) →
    (l ++ r).takeWhile p = l ++ r.takeWhile p := by
  intro l
  induction l with
  | nil => intro r _; rfl
  | cons a t ih =>
    intro r h
    have ha : p a = true := h a (List.mem_cons_self a t)
    simp [List.takeWhile, ha, ih (fun c hc => h c (List.mem_cons_of_mem a hc))]

theorem dwAppend {p : Char → Bool} : ∀ {l r : List Char}, (∀ c ∈ l, p c = true) →
    (l ++ r).dropWhile p = r.dropWhile p := by
  intro l
  induction l with
  | nil => intro r _; rfl
  | cons a t ih =>
    intro r h
    have ha : p a = true := h a (List.mem_cons_self a t)
    simp [List.dropWhile, ha, ih (fun c hc => h c (List.mem_cons_of_mem a hc))]

theorem twConsNeg {p : Char → Bool} {c : Char} (l : List Char) (h : p c = false) :
    (c :: l).takeWhile p = [] := by
  simp [List.takeWhile, h]

theorem dwConsNeg {p : Char → Bool} {c : Char} (l : List Char) (h : p c = false) :
    (c :: l).dropWhile p = c :: l := by
  simp [List.dropWhile, h]

theorem twAll {p : Char → Bool} : ∀ {l : List Char}, (∀ c ∈ l, p c = true) →
    l.takeWhile p = l := by
  intro l
  induction l with
  | nil => intro _; rfl
  | cons a t ih =>
    intro h
    have ha : p a = true := h a (List.mem_cons_self a t)
    simp [List.takeWhile, ha, ih (fun c hc => h c (List.mem_cons_of_mem a hc))]

theorem memTakeWhile {p : Char → Bool} : ∀ {l : List Char} {c : Char},
    c ∈ l.takeWhile p → p c = true := by
  intro l
  induction l with
  | nil => intro c h; simp [List.takeWhile] at h
  | cons a t ih =>
    intro c h
    cases hpa : p a with
    | true =>
      rw [List.takeWhile, hpa] at h
      rcases List.mem_cons.mp h with h | h
      · rw [h]; exact hpa
      · exact ih h
    | false =>
      rw [List.takeWhile, hpa] at h
      simp at h

theorem isPrefixOf_self_append (p t : List Char) : p.isPrefixOf (p ++ t) = true := by
  induction p with
  | nil => cases t <;> rfl
  | cons a ps ih => simp [List.isPrefixOf, ih]

theorem append_of_isPrefixOf : ∀ {p s : List Char}, p.isPrefixOf s = true → ∃ t, s = p ++ t := by
  intro p
  induction p with
  | nil => intro s _; exact ⟨s, rfl⟩
  | cons a ps ih =>
    intro s h
    cases s with
    | nil => simp [List.isPrefixOf] at h
    | cons b bs =>
      simp only [List.isPrefixOf, Bool.and_eq_true] at h
      obtain ⟨t, ht⟩ := ih h.2
      have hab : a = b := by simpa using h.1
      exact ⟨t, by simp [ht, hab]⟩

theorem includesSub_append_right (needle b : List Char) :
    includesSub needle (needle ++ b) = true := by
  cases needle with
  | nil =>
    cases b with
    | nil => rfl
    | cons c t => simp [includesSub]
  | cons n ns => simp [includesSub, isPrefixOf_self_append]

theorem includesSub_here (needle a b : List Char) :
    includesSub needle (a ++ (needle ++ b)) = true := by
  induction a with
  | nil => simpa using includesSub_append_right needle b
  | cons c t ih => simp [includesSub, ih]

theorem nodot_align : ∀ {x y u v : List Char},
    (∀ c ∈ x, (c == '.') = false) → (∀ c ∈ y, (c == '.') = false) →
    x ++ '.' :: u = y ++ '.' :: v → x = y ∧ u = v := by
  intro x
  induction x with
  | nil =>
    intro y u v _ hy h
    cases y with
    | nil =>
      simp only [List.nil_append, List.cons.injEq] at h
      exact ⟨rfl, h.2⟩
    | cons b ys =>
      simp only [List.nil_append, List.cons_append, List.cons.injEq] at h
      have hb := hy b (List.mem_cons_self b ys)
      rw [← h.1] at hb
      simp at hb
  | cons a xs ih =>
    intro y u v hx hy h
    cases y with
    | nil =>
      simp only [List.nil_append, List.cons_append, List.cons.injEq] at h
      have ha := hx a (List.mem_cons_self a xs)
      rw [h.1] at ha
      simp at ha
    | cons b ys =>
      simp only [List.cons_append, List.cons.injEq] at h
      obtain ⟨h1, h2⟩ := h
      obtain ⟨hxy, huv⟩ :=
        ih (fun c hc => hx c (List.mem_cons_of_mem a hc))
          (fun c hc => hy c (List.mem_cons_of_mem b hc)) h2
      exact ⟨by simp [h1, hxy], huv⟩


theorem stripScheme_parts {u r : List Char} (h : stripScheme u = some r) : ∃ p, u = p ++ r := by
  unfold stripScheme at h
  split at h
  · cases h
  · next r1 h1 =>
    have hu := stripP_some h1
    split at h
    · next r2 h2 =>
      have hr1 := stripP_some h2
      split at h
      · next r3 h3 =>
        cases h
        have hr2 := stripP_some h3
        exact ⟨httpChars ++ 's' :: schemeSep, by simp [hu, hr1, hr2, List.append_assoc]⟩
      · next h3 =>
        have h4 := stripP_some h
        exact ⟨httpChars ++ schemeSep, by simp [hu, h4, List.append_assoc]⟩
    · next h2 =>
      have h3 := stripP_some h
      exact ⟨httpChars ++ schemeSep, by simp [hu, h3, List.append_assoc]⟩

theorem stripScheme_https (r : List Char) : stripScheme (httpsPrefix ++ r) = some r := by
  have h : httpsPrefix ++ r = httpChars ++ (['s'] ++ (schemeSep ++ r)) := by
    simp [httpsPrefix, httpChars, schemeSep]
  rw [h]
  unfold stripScheme
  simp only [stripP_self_append]

theorem stripTV_inv {r2 r3 : List Char} (h : stripTicketsOrViews r2 = some r3) :
    r2 = ticketsW ++ r3 ∨ r2 = viewsW ++ r3 := by
  unfold stripTicketsOrViews at h
  split at h
  · next x h1 =>
    cases h
    exact Or.inl (stripP_some h1)
  · exact Or.inr (stripP_some h)

theorem ticketTail_inv {r2 sub s n : List Char} (h : ticketTail r2 sub = some (s, n)) :
    sub = s ∧ ∃ r4, (r2 = ticketsW ++ '/' :: r4 ∨ r2 = viewsW ++ '/' :: r4) ∧
      r4.takeWhile Char.isDigit = n ∧ (n == []) = false := by
  unfold ticketTail at h
  split at h
  · cases h
  · next r3 h1 =>
    split at h
    · cases h
    · next r4 h2 =>
      simp only at h
      split at h
      · cases h
      · next hnum =>
        have hr3 : r3 = '/' :: r4 := stripP_some h2
        simp only [Option.some.injEq, Prod.mk.injEq] at h
        refine ⟨h.1, r4, ?_, h.2, ?_⟩
        · rcases stripTV_inv h1 with h5 | h5
          · exact Or.inl (by rw [h5, hr3])
          · exact Or.inr (by rw [h5, hr3])
        · rw [← h.2]
          simpa using hnum

theorem matchTicketRoute_inv {z s n : List Char} (h : matchTicketRoute z = some (s, n)) :
    ∃ r r2, stripScheme z = some r ∧
      r.takeWhile nondot = s ∧ (s == []) = false ∧
      stripP zdkAgent (r.dropWhile nondot) = some r2 ∧
      ∃ r4, (r2 = ticketsW ++ '/' :: r4 ∨ r2 = viewsW ++ '/' :: r4) ∧
        r4.takeWhile Char.isDigit = n ∧ (n == []) = false := by
  unfold matchTicketRoute at h
  split at h
  · cases h
  · next r hS =>
    simp only at h
    split at h
    · cases h
    · next hsub =>
      split at h
      · cases h
      · next r2 h2 =>
        obtain ⟨hs, r4, horv, hnum, hne⟩ := ticketTail_inv h
        refine ⟨r, r2, hS, hs, ?_, h2, r4, horv, hnum, hne⟩
        rw [← hs]
        simpa using hsub

theorem matchHashTicketRoute_inv {z s n : List Char} (h : matchHashTicketRoute z = some (s, n)) :
    ∃ r r2, stripScheme z = some r ∧
      r.takeWhile nondot = s ∧ (s == []) = false ∧
      stripP zdkAgentHash (r.dropWhile nondot) = some r2 ∧
      ∃ r4, (r2 = ticketsW ++ '/' :: r4 ∨ r2 = viewsW ++ '/' :: r4) ∧
        r4.takeWhile Char.isDigit = n ∧ (n == []) = false := by
  unfold matchHashTicketRoute at h
  split at h
  · cases h
  · next r hS =>
    simp only at h
    split at h
    · cases h
    · next hsub =>
      split at h
      · cases h
      · next r2 h2 =>
        obtain ⟨hs, r4, horv, hnum, hne⟩ := ticketTail_inv h
        refine ⟨r, r2, hS, hs, ?_, h2, r4, horv, hnum, hne⟩
        rw [← hs]
        simpa using hsub

theorem nodot_of_sub {r s : List Char} (hsub : r.takeWhile nondot = s) :
    ∀ c ∈ s, (c == '.') = false := by
  intro c hc
  rw [← hsub] at hc
  have h2 := memTakeWhile hc
  simpa [nondot] using h2

theorem ticket_route_subdomain {z s n : List Char} (h : matchTicketRoute z = some (s, n)) :
    extractSubdomain z = some s := by
  obtain ⟨r, r2, hS, hsub, hne, h2, _⟩ := matchTicketRoute_inv h
  have hdw : r.dropWhile nondot = zdkDot ++ (agentSlash ++ r2) := by
    have h3 := stripP_some h2
    rw [h3]
    simp [zdkAgent, zdkDot, agentSlash]
  simp only [extractSubdomain, hS, hsub, hne, hdw, stripP_self_append]
  simp

theorem ticket_route_shape {z s n : List Char} (h : matchTicketRoute z = some (s, n)) :
    ∃ r r2, stripScheme z = some r ∧ r = s ++ '.' :: (zdkCom ++ (agentSlash ++ r2)) ∧
      (∀ c ∈ s, (c == '.') = false) ∧ (s == []) = false := by
  obtain ⟨r, r2, hS, hsub, hne, h2, _⟩ := matchTicketRoute_inv h
  have h3 := stripP_some h2
  refine ⟨r, r2, hS, ?_, nodot_of_sub hsub, hne⟩
  calc r = r.takeWhile nondot ++ r.dropWhile nondot := (List.takeWhile_append_dropWhile nondot r).symm
  _ = s ++ (zdkAgent ++ r2) := by rw [hsub, h3]
  _ = s ++ '.' :: (zdkCom ++ (agentSlash ++ r2)) := by simp [zdkAgent, zdkCom, agentSlash]

theorem ticket_route_zendeskUrl {z s n : List Char} (h : matchTicketRoute z = some (s, n)) :
    isZendeskUrl z = true := by
  obtain ⟨r, r2, hS, hr, _, _⟩ := ticket_route_shape h
  obtain ⟨p, hp⟩ := stripScheme_parts hS
  unfold isZendeskUrl
  rw [hp, hr]
  have hassoc : p ++ (s ++ '.' :: (zdkCom ++ (agentSlash ++ r2))) =
      (p ++ s ++ ['.']) ++ (zdkCom ++ (agentSlash ++ r2)) := by
    simp [List.append_assoc]
  rw [hassoc]
  exact includesSub_here zdkCom (p ++ s ++ ['.']) (agentSlash ++ r2)

theorem ticket_route_not_teams {z s n : List Char} (h : matchTicketRoute z = some (s, n)) :
    teamsTest z = false := by
  obtain ⟨r, r2, hS, hr, hnd, _⟩ := ticket_route_shape h
  simp only [teamsTest, hS]
  cases hT : teamsPath.isPrefixOf r with
  | false => rfl
  | true =>
    exfalso
    obtain ⟨t, ht⟩ := append_of_isPrefixOf hT
    have ht2 : s ++ '.' :: (zdkCom ++ (agentSlash ++ r2)) = statics7 ++ '.' :: (teamsAfter ++ t) := by
      rw [← hr, ht]
      simp [teamsPath, statics7, teamsAfter]
    obtain ⟨hseq, hveq⟩ := nodot_align hnd (by decide) ht2
    rw [show zdkCom = 'z' :: ['e', 'n', 'd', 'e', 's', 'k', '.', 'c', 'o', 'm'] from rfl,
        show teamsAfter = 't' :: ['e', 'a', 'm', 's', '.', 'c', 'd', 'n', '.', 'o', 'f', 'f', 'i', 'c', 'e', '.', 'n', 'e', 't', '/', 'e', 'v', 'e', 'r', 'g', 'r', 'e', 'e', 'n', '-', 'a', 's', 's', 'e', 't', 's', '/', 's', 'a', 'f', 'e', 'l', 'i', 'n', 'k', 's'] from rfl] at hveq
    simp only [List.cons_append, List.cons.injEq] at hveq
    exact absurd hveq.1 (by decide)

theorem teams_of_extract {u z : List Char} (h : extractZendeskUrlFromTeams u = some z) :
    teamsTest u = true := by
  unfold extractZendeskUrlFromTeams at h
  split at h
  · next hT => exact hT
  · cases h

theorem teamsTest_parts {u : List Char} (h : teamsTest u = true) :
    ∃ r t, stripScheme u = some r ∧ r = teamsPath ++ t := by
  unfold teamsTest at h
  split at h
  · cases h
  · next r hS =>
    obtain ⟨t, ht⟩ := append_of_isPrefixOf h
    exact ⟨r, t, hS, ht⟩

theorem teams_ticketNumber {u : List Char} (h : teamsTest u = true) :
    extractTicketNumber u = none := by
  obtain ⟨r, t, hS, hr⟩ := teamsTest_parts h
  have hsplit : r = statics7 ++ ('.' :: (teamsAfter ++ t)) := by
    rw [hr]
    simp [teamsPath, statics7, teamsAfter]
  have htw : r.takeWhile nondot = statics7 := by
    rw [hsplit, twAppend (by decide), twConsNeg _ (by decide)]
    simp
  have hdw : r.dropWhile nondot = '.' :: (teamsAfter ++ t) := by
    rw [hsplit, dwAppend (by decide), dwConsNeg _ (by decide)]
  have hstrip : stripP zdkAgent ('.' :: (teamsAfter ++ t)) = none := by
    simp [zdkAgent, teamsAfter, stripP]
  have hstriph : stripP zdkAgentHash ('.' :: (teamsAfter ++ t)) = none := by
    simp [zdkAgentHash, teamsAfter, stripP]
  have hTR : matchTicketRoute u = none := by
    simp only [matchTicketRoute, hS, htw, hdw, hstrip]
    simp [statics7]
  have hHR : matchHashTicketRoute u = none := by
    simp only [matchHashTicketRoute, hS, htw, hdw, hstriph]
    simp [statics7]
  simp only [extractTicketNumber, hTR, hHR]

theorem teams_not_restricted {u : List Char} (h : teamsTest u = true) :
    isRestrictedZendeskUrl u = false := by
  obtain ⟨r, t, hS, hr⟩ := teamsTest_parts h
  have hsplit : r = teamsHost ++ ('/' :: (teamsPathTl ++ t)) := by
    rw [hr]
    simp [teamsPath, teamsHost, teamsPathTl]
  have htw : r.takeWhile notHostDelim = teamsHost := by
    rw [hsplit, twAppend (by decide), twConsNeg _ (by decide)]
    simp
  have hsuf : zdkDot.isSuffixOf (teamsHost.map Char.toLower) = false := by decide
  have hne : (teamsHost == ([] : List Char)) = false := by decide
  unfold isRestrictedZendeskUrl
  split
  · rfl
  · next parts hP =>
    simp only [parseUrl, hS, htw, hne, Bool.false_eq_true, if_false, Option.some.injEq] at hP
    rw [← hP]
    simp only [hsuf, Bool.false_eq_true, if_false]

theorem ne_nil_append_beq {n m : List Char} (h : (n == ([] : List Char)) = false) :
    ((n ++ m) == ([] : List Char)) = false := by
  cases n with
  | nil => simp at h
  | cons c t => rfl

theorem matchTicketRoute_canonical {s n : List Char} (tail : List Char)
    (hne : (s == ([] : List Char)) = false) (hsd : ∀ c ∈ s, (c == '.') = false)
    (hnne : (n == ([] : List Char)) = false) (hnd : ∀ c ∈ n, c.isDigit = true) :
    matchTicketRoute (cleanUrlOf s n ++ tail) = some (s, n ++ tail.takeWhile Char.isDigit) := by
  have hnd' : ∀ c ∈ s, nondot c = true := fun c hc => by simp [nondot, hsd c hc]
  have hX : cleanUrlOf s n ++ tail = httpsPrefix ++ (s ++ (zdkAgentTickets ++ (n ++ tail))) := by
    simp [cleanUrlOf, List.append_assoc]
  have hzat : zdkAgentTickets ++ (n ++ tail) =
      '.' :: (['z', 'e', 'n', 'd', 'e', 's', 'k', '.', 'c', 'o', 'm', '/', 'a', 'g', 'e', 'n',
        't', '/', 't', 'i', 'c', 'k', 'e', 't', 's', '/'] ++ (n ++ tail)) := by
    simp [zdkAgentTickets]
  have htw : (s ++ (zdkAgentTickets ++ (n ++ tail))).takeWhile nondot = s := by
    rw [twAppend hnd', hzat, twConsNeg _ (by decide)]
    simp
  have hdw : (s ++ (zdkAgentTickets ++ (n ++ tail))).dropWhile nondot =
      zdkAgentTickets ++ (n ++ tail) := by
    rw [dwAppend hnd', hzat, dwConsNeg _ (by decide)]
  have hz2 : zdkAgentTickets ++ (n ++ tail) = zdkAgent ++ (ticketsW ++ '/' :: (n ++ tail)) := by
    simp [zdkAgentTickets, zdkAgent, ticketsW]
  have hstrip : stripP zdkAgent (zdkAgentTickets ++ (n ++ tail)) =
      some (ticketsW ++ '/' :: (n ++ tail)) := by
    rw [hz2, stripP_self_append]
  have htv : stripTicketsOrViews (ticketsW ++ '/' :: (n ++ tail)) = some ('/' :: (n ++ tail)) := by
    unfold stripTicketsOrViews
    rw [show ticketsW ++ '/' :: (n ++ tail) = ticketsW ++ (['/'] ++ (n ++ tail)) from by simp,
      stripP_self_append]
    simp
  have hsl : stripP ['/'] ('/' :: (n ++ tail)) = some (n ++ tail) :=
    stripP_self_append ['/'] (n ++ tail)
  have htwd : (n ++ tail).takeWhile Char.isDigit = n ++ tail.takeWhile Char.isDigit :=
    twAppend hnd
  rw [hX]
  simp only [matchTicketRoute, stripScheme_https, htw, hne, hdw, hstrip, Bool.false_eq_true,
    if_false]
  simp only [ticketTail, htv, hsl, htwd, ne_nil_append_beq hnne, Bool.false_eq_true, if_false]

theorem extractSubdomain_canonical {s : List Char} (n tail : List Char)
    (hne : (s == ([] : List Char)) = false) (hsd : ∀ c ∈ s, (c == '.') = false) :
    extractSubdomain (cleanUrlOf s n ++ tail) = some s := by
  have hnd' : ∀ c ∈ s, nondot c = true := fun c hc => by simp [nondot, hsd c hc]
  have hX : cleanUrlOf s n ++ tail = httpsPrefix ++ (s ++ (zdkAgentTickets ++ (n ++ tail))) := by
    simp [cleanUrlOf, List.append_assoc]
  have hzat : zdkAgentTickets ++ (n ++ tail) =
      '.' :: (['z', 'e', 'n', 'd', 'e', 's', 'k', '.', 'c', 'o', 'm', '/', 'a', 'g', 'e', 'n',
        't', '/', 't', 'i', 'c', 'k', 'e', 't', 's', '/'] ++ (n ++ tail)) := by
    simp [zdkAgentTickets]
  have htw : (s ++ (zdkAgentTickets ++ (n ++ tail))).takeWhile nondot = s := by
    rw [twAppend hnd', hzat, twConsNeg _ (by decide)]
    simp
  have hdw : (s ++ (zdkAgentTickets ++ (n ++ tail))).dropWhile nondot =
      zdkAgentTickets ++ (n ++ tail) := by
    rw [dwAppend hnd', hzat, dwConsNeg _ (by decide)]
  have hz3 : zdkAgentTickets ++ (n ++ tail) =
      zdkDot ++ (['/', 'a', 'g', 'e', 'n', 't', '/', 't', 'i', 'c', 'k', 'e', 't', 's', '/'] ++
        (n ++ tail)) := by
    simp [zdkAgentTickets, zdkDot]
  have hstrip : stripP zdkDot (zdkAgentTickets ++ (n ++ tail)) =
      some (['/', 'a', 'g', 'e', 'n', 't', '/', 't', 'i', 'c', 'k', 'e', 't', 's', '/'] ++
        (n ++ tail)) := by
    rw [hz3, stripP_self_append]
  rw [hX]
  simp only [extractSubdomain, stripScheme_https, htw, hne, hdw, hstrip, Bool.false_eq_true,
    if_false, Option.isSome_some, if_true]

theorem extractSubdomain_props {u s : List Char} (h : extractSubdomain u = some s) :
    (s == ([] : List Char)) = false ∧ ∀ c ∈ s, (c == '.') = false := by
  unfold extractSubdomain at h
  split at h
  · cases h
  · next r hS =>
    simp only at h
    split at h
    · cases h
    · next hsub =>
      split at h
      · cases h
        constructor
        · simpa using hsub
        · exact nodot_of_sub rfl
      · cases h

theorem extractTicketNumber_props {u n : List Char} (h : extractTicketNumber u = some n) :
    (n == ([] : List Char)) = false ∧ ∀ c ∈ n, c.isDigit = true := by
  unfold extractTicketNumber at h
  split at h
  · next m h1 =>
    cases h
    obtain ⟨_, _, _, _, _, _, r4, _, hnum, hne⟩ := matchTicketRoute_inv h1
    refine ⟨hne, fun c hc => ?_⟩
    rw [← hnum] at hc
    exact memTakeWhile hc
  · next h1 =>
    split at h
    · next m h2 =>
      cases h
      obtain ⟨_, _, _, _, _, _, r4, _, hnum, hne⟩ := matchHashTicketRoute_inv h2
      refine ⟨hne, fun c hc => ?_⟩
      rw [← hnum] at hc
      exact memTakeWhile hc
    · cases h

/-- Claim C1, counterexample: tab 7 is registered as a NavigationTarget by
the navigation-target-created listener (global flag clear, so the plain
tracking branch runs) and has not been forgotten, yet `isTabRecentlyNew`
reports it NOT recent — background.js uses `navigationTabs` as an ignore
list (lines 137-140), so the query returns false where the claim requires
true. -/
theorem navTarget_recent_cex :
    (isTabRecentlyNew (onCreatedNavigationTarget wOk stEmpty 4 7 urlT500).state 7).1 = false := by
  decide

/-- Claim C1 (amended): for every tabId registered as a NavigationTarget
and not yet forgotten, `isTabRecentlyNew` returns false, regardless of the
time elapsed since registration and of any `recentNewTabs` entry —
NavigationTarget registration excludes a tab from triggering reuse instead
of making it always recent. -/
theorem navTarget_never_recent (st : BgState) (tabId : Nat)
    (h : st.navigationTabs.contains tabId = true) :
    (isTabRecentlyNew st tabId).1 = false := by
  have h2 : tabId ∈ st.navigationTabs := by simpa using h
  simp [isTabRecentlyNew, h2]

theorem navTarget_never_recent_witness :
    stNavTarget7.navigationTabs.contains 7 = true ∧
    (isTabRecentlyNew stNavTarget7 7).1 = false :=
  ⟨by decide, navTarget_never_recent stNavTarget7 7 (by decide)⟩

/-- Claim C3: while a hand-off for a resource key is in progress (the key
is in `ongoingNavigations`), a second `reuseZendeskTab` call for the same
key is dropped, not queued: its trace is exactly the settings read (no tab
query, no focus, no navigation, no close), it schedules no close callback,
and the state is unchanged except for the `finally` reset of the global
flag — so at most one hand-off per key runs to completion. -/
theorem duplicate_reuse_dropped (w : World) (st : BgState) (newTabId : Nat) (url : List Char)
    (h : st.ongoingNavigations.contains (navKey url) = true) :
    ∃ b, reuseZendeskTab w st newTabId url =
      { state := { st with isNavigating := false }, trace := [Act.getSettings],
        deferred := [], threw := b } := by
  unfold reuseZendeskTab
  cases hw : w.settingsR with
  | error e => exact ⟨true, rfl⟩
  | ok nr =>
    cases hs : extractSubdomain url with
    | none =>
      cases hn : extractTicketNumber url with
      | none => exact ⟨false, rfl⟩
      | some n => exact ⟨false, rfl⟩
    | some s =>
      cases hn : extractTicketNumber url with
      | none => exact ⟨false, rfl⟩
      | some n =>
        have hkey : st.ongoingNavigations.contains (s ++ '-' :: n) = true := by
          simpa [navKey, hs, hn, jsTemplateOpt] using h
        refine ⟨false, ?_⟩
        simp only [hkey]
        rfl

theorem duplicate_reuse_dropped_witness :
    stBusy500.ongoingNavigations.contains (navKey urlT500) = true ∧
    ∃ b, reuseZendeskTab wOk stBusy500 1 urlT500 =
      { state := { stBusy500 with isNavigating := false }, trace := [Act.getSettings],
        deferred := [], threw := b } :=
  ⟨by decide, duplicate_reuse_dropped wOk stBusy500 1 urlT500 (by decide)⟩

/-- Claim C4 is a code bug, shown at a failing input: with the tab query
rejecting (an exception raised after the lock entry was created),
`reuseZendeskTab` rejects and the `finally` clears the global flag, but the
per-resource key `acme-500` is still in `ongoingNavigations` when the
function finishes — the catch block's
`ongoingNavigations.delete(navigationKey)` reads a `const` that is scoped
inside the `try` block and raises a `ReferenceError` before the delete can
run (only the 5-second failsafe timer removes the key later), although the
code's own comment says "Make sure to clear on error too". -/
theorem lock_leak_on_exception :
    (reuseZendeskTab wQueryFail stEmpty 1 urlT500).threw = true ∧
    (reuseZendeskTab wQueryFail stEmpty 1 urlT500).state.ongoingNavigations.contains keyAcme500
      = true ∧
    (reuseZendeskTab wQueryFail stEmpty 1 urlT500).state.isNavigating = false := by
  decide

/-- Claim C5: a navigation-target-created event that arrives while the
global reuse flag is set, for a URL matching a ticket route, makes the
scheduled callback navigate the source tab directly to that URL and close
the newly created tab only if it still exists; the new tab is not tracked
as a reuse candidate (`recentNewTabs` is untouched and the recency query
on it returns false, since it lands in the `navigationTabs` ignore set). -/
theorem global_flag_loop_breaker (w : World) (st : BgState) (src tgt : Nat) (url : List Char)
    (h : st.isNavigating = true ∧ (src == 0) = false ∧ (tgt == 0) = false ∧
      (url == ([] : List Char)) = false ∧
      ((matchTicketRoute url).isSome || (matchHashTicketRoute url).isSome) = true) :
    (onCreatedNavigationTarget w st src tgt url).deferred =
      Act.updateUrl src url :: Act.getTab tgt ::
        (if w.alive tgt then [Act.removeTab tgt] else []) ∧
    (onCreatedNavigationTarget w st src tgt url).state.recentNewTabs = st.recentNewTabs ∧
    (isTabRecentlyNew (onCreatedNavigationTarget w st src tgt url).state tgt).1 = false := by
  obtain ⟨h1, h2, h3, h4, h5⟩ := h
  have hcontains : tgt ∈ setAddNat tgt st.navigationTabs := by
    by_cases hc : tgt ∈ st.navigationTabs <;> simp [setAddNat, hc]
  simp only [onCreatedNavigationTarget, h1, h2, h3, h4, h5, Bool.not_false, Bool.and_self,
    Bool.true_and, Bool.and_true, if_true]
  simp [isTabRecentlyNew, hcontains]

theorem global_flag_loop_breaker_witness :
    (stNavigating.isNavigating = true ∧ ((4 : Nat) == 0) = false ∧ ((9 : Nat) == 0) = false ∧
      (urlT500 == ([] : List Char)) = false ∧
      ((matchTicketRoute urlT500).isSome || (matchHashTicketRoute urlT500).isSome) = true) ∧
    (onCreatedNavigationTarget wOk stNavigating 4 9 urlT500).deferred =
      Act.updateUrl 4 urlT500 :: Act.getTab 9 ::
        (if wOk.alive 9 then [Act.removeTab 9] else []) ∧
    (onCreatedNavigationTarget wOk stNavigating 4 9 urlT500).state.recentNewTabs =
      stNavigating.recentNewTabs ∧
    (isTabRecentlyNew (onCreatedNavigationTarget wOk stNavigating 4 9 urlT500).state 9).1 =
      false :=
  ⟨by decide, global_flag_loop_breaker wOk stNavigating 4 9 urlT500 (by decide)⟩

/-- Claim C8, counterexample: for `/agent/tickets/123abc` (non-numeric
trailing part after the digits) the classification does NOT treat the URL
as unrelated — `TICKET_ROUTE` is unanchored after the digit group, so the
route matches and the ticket number `123` is extracted. -/
theorem nonnumeric_tail_cex :
    extractTicketNumber url123abc = some num123 ∧
    (matchTicketRoute url123abc).isSome = true := by
  decide

/-- Claim C8 (amended): a non-numeric trailing part does not invalidate the
match; for every canonically shaped ticket URL with any trailing part
appended directly after the digits, the route still matches and the
extracted ticket number is the leading maximal digit run (so
`/agent/tickets/123abc` yields `123`, classified as a resource, not
unrelated). -/
theorem leading_digits_extracted (s n tail : List Char)
    (h : (s == ([] : List Char)) = false ∧ (∀ c ∈ s, (c == '.') = false) ∧
      (n == ([] : List Char)) = false ∧ ∀ c ∈ n, c.isDigit = true) :
    extractTicketNumber (cleanUrlOf s n ++ tail) =
      some (n ++ tail.takeWhile Char.isDigit) := by
  obtain ⟨h1, h2, h3, h4⟩ := h
  have hm := matchTicketRoute_canonical tail h1 h2 h3 h4
  simp only [extractTicketNumber, hm]

theorem leading_digits_extracted_witness :
    ((subAcme == ([] : List Char)) = false ∧ (∀ c ∈ subAcme, (c == '.') = false) ∧
      (num123 == ([] : List Char)) = false ∧ ∀ c ∈ num123, c.isDigit = true) ∧
    extractTicketNumber (cleanUrlOf subAcme num123 ++ tailAbc) =
      some (num123 ++ tailAbc.takeWhile Char.isDigit) :=
  ⟨by decide, leading_digits_extracted subAcme num123 tailAbc (by decide)⟩

/-- Claim C9: classification is a pure function of the URL string, and it
is idempotent under canonical rebuilding — whenever both the subdomain and
the ticket number extract from a URL, re-extracting from the rebuilt clean
URL `https://s.zendesk.com/agent/tickets/n` yields the same pair. -/
theorem classify_idempotent (u s n : List Char)
    (hs : extractSubdomain u = some s) (hn : extractTicketNumber u = some n) :
    extractSubdomain (cleanUrlOf s n) = some s ∧
    extractTicketNumber (cleanUrlOf s n) = some n := by
  obtain ⟨hne, hsd⟩ := extractSubdomain_props hs
  obtain ⟨hnne, hnd⟩ := extractTicketNumber_props hn
  constructor
  · have h2 := extractSubdomain_canonical n [] hne hsd
    simpa using h2
  · have h2 := matchTicketRoute_canonical [] hne hsd hnne hnd
    simp only [List.append_nil, List.takeWhile_nil] at h2
    simp only [extractTicketNumber, h2]

theorem classify_idempotent_witness :
    extractSubdomain urlT500 = some subAcme ∧ extractTicketNumber urlT500 = some num500 ∧
    (extractSubdomain (cleanUrlOf subAcme num500) = some subAcme ∧
      extractTicketNumber (cleanUrlOf subAcme num500) = some num500) :=
  ⟨by decide, by decide, classify_idempotent urlT500 subAcme num500 (by decide) (by decide)⟩

/-- Claim C2, counterexample: the URL
`https://acme.zendesk.com/agent/tickets/123/print` matches the restricted
shape (`isRestrictedZendeskUrl` is true: a ticket print view of a
zendesk.com host), yet a navigation-completed event for it on a recently
created tab DOES start a hand-off — `handleNavigation` in background.js
never consults the restricted classifier, and this URL also matches
`TICKET_ROUTE`, so the reuse pipeline queries for candidate tabs. -/
theorem restricted_handoff_cex :
    isRestrictedZendeskUrl urlPrint123 = true ∧
    Act.queryTabs subAcme ∈ (handleNavigation wOk stTab1New ⟨1, urlPrint123, 0⟩).trace := by
  decide

/-- Claim C2 (amended): for every navigation-completed or
history-state-updated event whose URL matches a restricted shape AND does
not match the agent ticket routes (`TICKET_ROUTE`/`HASH_TICKET_ROUTE`),
`handleNavigation` performs no browser call, schedules nothing, starts no
hand-off, and leaves the state unchanged.  Restricted URLs that also match
the ticket route (such as the agent ticket print view of the
counterexample) are the exception the code permits. -/
theorem restricted_no_handoff (w : World) (st : BgState) (d : NavDetails)
    (hr : isRestrictedZendeskUrl d.url = true)
    (ht : matchTicketRoute d.url = none) (hh : matchHashTicketRoute d.url = none) :
    handleNavigation w st d = noopResult st := by
  have hTn : extractTicketNumber d.url = none := by
    simp only [extractTicketNumber, ht, hh]
  have hTeams : teamsTest d.url = false := by
    cases hT : teamsTest d.url with
    | false => rfl
    | true =>
      rw [teams_not_restricted hT] at hr
      cases hr
  have hE : earlyLoopHit st d.url = false := by
    simp [earlyLoopHit, hTn]
  have hTT : ticketUrlTest d.url = false := by
    simp [ticketUrlTest, ht, hh]
  cases hNav : st.isNavigating with
  | true => simp [handleNavigation, hNav]
  | false =>
    cases hF : (d.frameId == 0) with
    | false => simp [handleNavigation, hNav, hF]
    | true => simp [handleNavigation, hNav, hF, hE, hTeams, hTT]

theorem restricted_no_handoff_witness :
    isRestrictedZendeskUrl urlChat = true ∧ matchTicketRoute urlChat = none ∧
    matchHashTicketRoute urlChat = none ∧
    handleNavigation wOk stTab1New ⟨1, urlChat, 0⟩ = noopResult stTab1New :=
  ⟨by decide, by decide, by decide,
    restricted_no_handoff wOk stTab1New ⟨1, urlChat, 0⟩ (by decide) (by decide) (by decide)⟩

/-- Claim C6: when the selected target tab's URL already equals the clean
ticket URL, the hand-off makes no navigation call on the target tab
(neither script injection nor URL update): its trace is exactly settings,
query, focus-tab and focus-window; the scheduled close of the origin tab
probes its existence first and removes it only when still present; and the
run completes without an exception. -/
theorem same_url_skips_navigation (w : World) (st : BgState) (newTabId : Nat)
    (url s n : List Char) (nr : Bool) (ts : List Tab) (c : Tab) (rest : List Tab)
    (h : w.settingsR = Except.ok nr ∧ extractSubdomain url = some s ∧
      extractTicketNumber url = some n ∧
      st.ongoingNavigations.contains (s ++ '-' :: n) = false ∧
      w.queryR = Except.ok ts ∧ reuseCandidates ts newTabId = c :: rest ∧
      w.focusTabR = Except.ok () ∧ w.focusWinR = Except.ok () ∧
      (pickTarget c rest).url = cleanUrlOf s n) :
    (reuseZendeskTab w st newTabId url).trace =
      [Act.getSettings, Act.queryTabs s, Act.focusTab (pickTarget c rest).id,
        Act.focusWindow (pickTarget c rest).windowId] ∧
    (reuseZendeskTab w st newTabId url).deferred =
      Act.getTab newTabId :: (if w.alive newTabId then [Act.removeTab newTabId] else []) ∧
    (reuseZendeskTab w st newTabId url).threw = false := by
  obtain ⟨h1, h2, h3, h4, h5, h6, h7, h8, h9⟩ := h
  have h9b : ((pickTarget c rest).url == cleanUrlOf s n) = true := by
    simp [h9]
  simp only [reuseZendeskTab, h1, h2, h3, h4, h5, h6, h7, h8, h9b, Bool.false_eq_true, if_false,
    if_true, closeNewTabActs]
  simp

theorem same_url_skips_navigation_witness :
    (wSameUrl.settingsR = Except.ok true ∧ extractSubdomain urlT500 = some subAcme ∧
      extractTicketNumber urlT500 = some num500 ∧
      stEmpty.ongoingNavigations.contains (subAcme ++ '-' :: num500) = false ∧
      wSameUrl.queryR = Except.ok [tabClean500] ∧
      reuseCandidates [tabClean500] 1 = tabClean500 :: [] ∧
      wSameUrl.focusTabR = Except.ok () ∧ wSameUrl.focusWinR = Except.ok () ∧
      (pickTarget tabClean500 []).url = cleanUrlOf subAcme num500) ∧
    (reuseZendeskTab wSameUrl stEmpty 1 urlT500).trace =
      [Act.getSettings, Act.queryTabs subAcme, Act.focusTab (pickTarget tabClean500 []).id,
        Act.focusWindow (pickTarget tabClean500 []).windowId] ∧
    (reuseZendeskTab wSameUrl stEmpty 1 urlT500).deferred =
      Act.getTab 1 :: (if wSameUrl.alive 1 then [Act.removeTab 1] else []) ∧
    (reuseZendeskTab wSameUrl stEmpty 1 urlT500).threw = false :=
  ⟨⟨rfl, by decide, by decide, by decide, rfl, by decide, rfl, rfl, by decide⟩,
    same_url_skips_navigation wSameUrl stEmpty 1 urlT500 subAcme num500 true [tabClean500]
      tabClean500 []
      ⟨rfl, by decide, by decide, by decide, rfl, by decide, rfl, rfl, by decide⟩⟩

/-- Claim C7: when the hand-off reaches the navigating step with a target
tab whose URL differs from the clean URL, a direct URL update of the
target tab to the clean URL is performed whenever no-reload mode is
disabled (immediately), or no-reload mode is enabled and the injected
attempt does not report success — a rejected injection, an absent result
object (whose `result.logs` read throws and is caught by the inner catch),
or a reported failure all fall back to the update. -/
theorem navigation_fallback_update (w : World) (st : BgState) (newTabId : Nat)
    (url s n : List Char) (nr : Bool) (ts : List Tab) (c : Tab) (rest : List Tab)
    (h : w.settingsR = Except.ok nr ∧ extractSubdomain url = some s ∧
      extractTicketNumber url = some n ∧
      st.ongoingNavigations.contains (s ++ '-' :: n) = false ∧
      w.queryR = Except.ok ts ∧ reuseCandidates ts newTabId = c :: rest ∧
      w.focusTabR = Except.ok () ∧ w.focusWinR = Except.ok () ∧
      ((pickTarget c rest).url == cleanUrlOf s n) = false ∧
      (nr = false ∨ (nr = true ∧ execNotSuccess w = true))) :
    Act.updateUrl (pickTarget c rest).id (cleanUrlOf s n) ∈
      (reuseZendeskTab w st newTabId url).trace := by
  obtain ⟨h1, h2, h3, h4, h5, h6, h7, h8, h9, hmode⟩ := h
  simp only [reuseZendeskTab, h1, h2, h3, h4, h5, h6, h7, h8, h9, Bool.false_eq_true, if_false]
  rcases hmode with hnr | ⟨hnr, hens⟩
  · subst hnr
    simp only [Bool.false_eq_true, if_false]
    unfold reuseFallback
    cases hu : w.updUrlR <;> simp
  · subst hnr
    simp only [if_true]
    cases hex : w.execR with
    | error e =>
      unfold reuseFallback
      cases hu : w.updUrlR <;> simp
    | ok o =>
      cases o with
      | none =>
        unfold reuseFallback
        cases hu : w.updUrlR <;> simp
      | some r =>
        have hrs : r.success = false := by
          simpa [execNotSuccess, hex] using hens
        simp only [hrs, Bool.false_eq_true, if_false]
        unfold reuseFallback
        cases hu : w.updUrlR <;> simp

theorem navigation_fallback_update_witness :
    (wNoShape.settingsR = Except.ok true ∧ extractSubdomain urlT500 = some subAcme ∧
      extractTicketNumber urlT500 = some num500 ∧
      stEmpty.ongoingNavigations.contains (subAcme ++ '-' :: num500) = false ∧
      wNoShape.queryR = Except.ok [tabOn80] ∧
      reuseCandidates [tabOn80] 1 = tabOn80 :: [] ∧
      wNoShape.focusTabR = Except.ok () ∧ wNoShape.focusWinR = Except.ok () ∧
      ((pickTarget tabOn80 []).url == cleanUrlOf subAcme num500) = false ∧
      (true = false ∨ (true = true ∧ execNotSuccess wNoShape = true))) ∧
    Act.updateUrl (pickTarget tabOn80 []).id (cleanUrlOf subAcme num500) ∈
      (reuseZendeskTab wNoShape stEmpty 1 urlT500).trace :=
  ⟨⟨rfl, by decide, by decide, by decide, rfl, by decide, rfl, rfl, by decide,
      Or.inr ⟨rfl, rfl⟩⟩,
    navigation_fallback_update wNoShape stEmpty 1 urlT500 subAcme num500 true [tabOn80]
      tabOn80 []
      ⟨rfl, by decide, by decide, by decide, rfl, by decide, rfl, rfl, by decide,
        Or.inr ⟨rfl, rfl⟩⟩⟩

/-- Claim C10: a main-frame navigation event whose URL is a Teams safelink
wrapping an encoded Zendesk ticket URL is handled exactly like a
navigation of the same tab to the decoded ticket URL, and (when the global
lock is clear) both reduce to `processZendeskNavigation` on the decoded
URL — the same recency check and hand-off. -/
theorem teams_safelink_equivalent (w : World) (st : BgState) (tabId : Nat) (u z : List Char)
    (hz : extractZendeskUrlFromTeams u = some z)
    (ht : (matchTicketRoute z).isSome = true) :
    handleNavigation w st ⟨tabId, u, 0⟩ = handleNavigation w st ⟨tabId, z, 0⟩ ∧
    (st.isNavigating = false →
      handleNavigation w st ⟨tabId, u, 0⟩ = processZendeskNavigation w st tabId z) := by
  obtain ⟨⟨s, n⟩, hm⟩ := Option.isSome_iff_exists.mp ht
  have hTu : teamsTest u = true := teams_of_extract hz
  have hTnU : extractTicketNumber u = none := teams_ticketNumber hTu
  have hSub : extractSubdomain z = some s := ticket_route_subdomain hm
  have hTn : extractTicketNumber z = some n := by simp only [extractTicketNumber, hm]
  have hZn : isZendeskUrl z = true := ticket_route_zendeskUrl hm
  have hTz : teamsTest z = false := ticket_route_not_teams hm
  cases hNav : st.isNavigating with
  | true =>
    constructor
    · simp [handleNavigation, hNav]
    · intro hc
      cases hc
  | false =>
    have hEu : earlyLoopHit st u = false := by
      simp [earlyLoopHit, hTnU]
    have hU : handleNavigation w st ⟨tabId, u, 0⟩ = processZendeskNavigation w st tabId z := by
      simp only [handleNavigation, hNav, hEu, hTu, hz, ht, Bool.false_eq_true, if_false, if_true]
      simp
    have hZ : handleNavigation w st ⟨tabId, z, 0⟩ = processZendeskNavigation w st tabId z := by
      have hNK : navKey z = s ++ '-' :: n := by
        simp [navKey, hSub, hTn, jsTemplateOpt]
      have hE : earlyLoopHit st z = st.ongoingNavigations.contains (s ++ '-' :: n) := by
        simp [earlyLoopHit, hTn, hSub, hZn]
      cases hc : st.ongoingNavigations.contains (s ++ '-' :: n) with
      | true =>
        rw [hc] at hE
        simp only [handleNavigation, hNav, hE, Bool.false_eq_true, if_false, if_true]
        simp only [processZendeskNavigation, hNK, hc, if_true]
        simp
      | false =>
        rw [hc] at hE
        have hTTz : ticketUrlTest z = true := by
          simp [ticketUrlTest, ht]
        simp only [handleNavigation, hNav, hE, hTz, hTTz, Bool.false_eq_true, if_false, if_true]
        simp
    exact ⟨hU.trans hZ.symm, fun _ => hU⟩

theorem teams_safelink_equivalent_witness :
    extractZendeskUrlFromTeams urlTeams = some urlT500 ∧
    (matchTicketRoute urlT500).isSome = true ∧
    (handleNavigation wNoShape stTab1New ⟨1, urlTeams, 0⟩ =
        handleNavigation wNoShape stTab1New ⟨1, urlT500, 0⟩ ∧
      (stTab1New.isNavigating = false →
        handleNavigation wNoShape stTab1New ⟨1, urlTeams, 0⟩ =
          processZendeskNavigation wNoShape stTab1New 1 urlT500)) :=
  ⟨by decide, by decide,
    teams_safelink_equivalent wNoShape stTab1New 1 urlTeams urlT500 (by decide) (by decide)⟩
